import Mathlib

/-!
# simpleiconsbadgegenerator: a shallow embedding of `main.go`

Go strings are embedded as Lean `String`s, read as sequences of Unicode code
points (well-formed UTF-8).  The patterns the program searches for (`" "`,
`"."`, `"#"`) are single ASCII characters, so working on code points instead
of bytes does not change what is matched or cut.

Network, file system, standard input and standard output are explicit: a
`World` is threaded through every operation, and what the outside world answers
(the HTTP response, whether a directory or a file can be created, whether a copy
is interrupted) is given by an environment record that the theorems quantify
over.
-/

namespace SimpleIconsBadge

/-! ## The pieces of the Go standard library that the program calls -/

/-- Tables and platform rules of the Go standard library that are not part of
the repository: `caseTable` is `unicode.To(unicode.LowerCase, r)` as consulted
for runes above the ASCII range, `filepathJoin` is `filepath.Join` on two
elements. -/
structure GoLib where
  caseTable : Char → Char
  filepathJoin : String → String → String

/-- Go `unicode.ToLower`: ASCII runes are handled directly (`A`..`Z` are moved
by `'a' - 'A'`, every other ASCII rune is returned as it is), all other runes
go through the case table. -/
def unicodeToLower (L : GoLib) (r : Char) : Char :=
  if r.toNat ≤ 127 then
    if 65 ≤ r.toNat ∧ r.toNat ≤ 90 then Char.ofNat (r.toNat + 32) else r
  else L.caseTable r

/-- Go `unicode.IsSpace`: the Latin-1 white space runes and the other runes
with the Unicode White_Space property. -/
def unicodeIsSpace (r : Char) : Bool :=
  let n := r.toNat
  (9 ≤ n ∧ n ≤ 13) ∨ n = 32 ∨ n = 0x85 ∨ n = 0xA0 ∨ n = 0x1680 ∨
    (0x2000 ≤ n ∧ n ≤ 0x200a) ∨ n = 0x2028 ∨ n = 0x2029 ∨ n = 0x202f ∨
    n = 0x205f ∨ n = 0x3000

/-- Go `strings.ToLower`: every rune is mapped through `unicode.ToLower`. -/
def stringsToLower (L : GoLib) (s : String) : String :=
  ⟨s.data.map (unicodeToLower L)⟩

/-- Go `strings.TrimSpace`: leading and trailing white space removed. -/
def stringsTrimSpace (s : String) : String :=
  ⟨((s.data.dropWhile unicodeIsSpace).reverse.dropWhile unicodeIsSpace).reverse⟩

/-- Go `strings.HasPrefix`. -/
def stringsHasPrefix (s start : String) : Bool :=
  start.data.isPrefixOf s.data

/-- Scan of `strings.ReplaceAll` for a non-empty `old`: a leftmost occurrence of
`old` is replaced by `new` and the scan resumes after it; `skip` counts the
characters of a matched occurrence still to be passed over. -/
def replaceFrom (old new : List Char) : Nat → List Char → List Char
  | _, [] => []
  | skip + 1, _ :: cs => replaceFrom old new skip cs
  | 0, c :: cs =>
    if old.isPrefixOf (c :: cs) then new ++ replaceFrom old new (old.length - 1) cs
    else c :: replaceFrom old new 0 cs

/-- Go `strings.ReplaceAll`: all non-overlapping occurrences of `old` replaced
by `new`; an empty `old` matches before every rune and at the end. -/
def stringsReplaceAll (s old new : String) : String :=
  if old.data = [] then ⟨new.data ++ s.data.flatMap (fun c => c :: new.data)⟩
  else ⟨replaceFrom old.data new.data 0 s.data⟩

/-- Go `bufio.Reader.ReadString`: the input up to and including the first
delimiter, or all of it when the delimiter does not occur; the second component
is what stays unread. -/
def readString (delim : Char) : List Char → List Char × List Char
  | [] => ([], [])
  | c :: cs =>
    if c = delim then ([c], cs)
    else ((c :: (readString delim cs).1), (readString delim cs).2)

/-! ## Data model -/

/-- Go `IconData`: one icon of the SimpleIcons JSON file. -/
structure IconData where
  Title : String
  Hex : String
deriving DecidableEq, Repr

/-- An HTTP response as far as the program looks at it. -/
structure Response where
  StatusCode : Nat
  Body : String
deriving DecidableEq, Repr

/-- The step at which `downloadBadge` gave up, with the message of the Go
`error` it returned. -/
inductive DownloadError where
  | transport (msg : String)
  | status (msg : String)
  | mkdir (msg : String)
  | create (msg : String)
  | copy (msg : String)
deriving DecidableEq, Repr

/-- Text of the Go `error`, as printed with `%v`. -/
def DownloadError.msg : DownloadError → String
  | .transport m => m
  | .status m => m
  | .mkdir m => m
  | .create m => m
  | .copy m => m

/-- Directories and regular files (path and contents) on disk. -/
structure FileSystem where
  dirs : List String
  files : List (String × String)
deriving DecidableEq, Repr

/-- Everything outside the process that the program reads or changes. -/
structure World where
  fs : FileSystem
  stdin : List Char
  stdout : List String
  requests : List String
deriving DecidableEq, Repr

/-- What the outside world answers during one call of `downloadBadge`:
`get` is the outcome of `http.Get`, `mkdirAll` is `none` on success and
otherwise the directories made before the failure with the error text,
`create` is `none` on success, `copy` is `none` on success and otherwise the
number of characters written before the failure with the error text. -/
structure CallEnv where
  get : String → Except String Response
  mkdirAll : String → Option (List String × String)
  create : String → Option String
  copy : Option (Nat × String)

/-- What the outside world answers while `badges.html` is written: `create` as
in `CallEnv`, `write k` for the `k`-th `WriteString` (`none` on success,
otherwise the number of characters written and the error text). -/
structure HtmlEnv where
  create : String → Option String
  write : Nat → Option (Nat × String)

/-- Go `fmt.Print` and friends: text appended to standard output. -/
def World.print (w : World) (text : String) : World :=
  { w with stdout := w.stdout ++ [text] }

/-- One line taken from standard input with `reader.ReadString('\n')`. -/
def World.readLine (w : World) : String × World :=
  (⟨(readString '\n' w.stdin).1⟩, { w with stdin := (readString '\n' w.stdin).2 })

/-- Contents of the file at `path` set to `content`, the file being added when
it is not there yet. -/
def setFile (files : List (String × String)) (path content : String) :
    List (String × String) :=
  if files.any (fun e => e.1 = path) then
    files.map (fun e => if e.1 = path then (path, content) else e)
  else files ++ [(path, content)]

/-- Contents of the file at `path`, if there is one. -/
def readFile (files : List (String × String)) (path : String) : Option String :=
  (files.find? (fun e => e.1 = path)).map (fun e => e.2)

/-- Whether `os.Stat(path)` fails with an error for which `os.IsNotExist`
holds. -/
def FileSystem.notExist (fs : FileSystem) (path : String) : Bool :=
  !(fs.dirs.contains path) && !(fs.files.any (fun e => e.1 = path))

/-! ## The program -/

/-- Loop of `FindIconByName`, the name being lowercased already. -/
def findLoop (L : GoLib) (name : String) : List IconData → Option IconData
  | [] => none
  | icon :: rest =>
    if stringsToLower L icon.Title = name then some icon else findLoop L name rest

/-- Go `FindIconByName`: the icon data if found, `none` standing for `nil`. -/
def FindIconByName (L : GoLib) (icons : List IconData) (name : String) : Option IconData :=
  findLoop L (stringsToLower L name) icons

/-- Go `stripHash`. -/
def stripHash (color : String) : String :=
  if stringsHasPrefix color "#" then ⟨color.data.drop 1⟩ else color

/-- Go `computeSlug`. -/
def computeSlug (L : GoLib) (serviceName : String) : String :=
  let slug := stringsToLower L serviceName
  let slug := stringsReplaceAll slug " " ""
  let slug := stringsReplaceAll slug "." "dot"
  slug

/-- Go `downloadBadge`: the returned file name or error, and the world after
the call. -/
def downloadBadge (L : GoLib) (env : CallEnv)
    (labelText iconName iconBackgroundColor fontColor destDir : String) (w : World) :
    Except DownloadError String × World :=
  let labelTextSlug := computeSlug L labelText
  let iconNameLower := computeSlug L iconName
  let iconBackgroundColor := stripHash iconBackgroundColor
  let fontColor := stripHash fontColor
  let url := "https://img.shields.io/badge/-" ++ labelText ++ "-" ++ iconBackgroundColor ++
    "?style=flat-square&logo=" ++ iconNameLower ++ "&logoColor=" ++ fontColor
  let w := w.print ("Constructed URL: " ++ url ++ "\n")
  let w := { w with requests := w.requests ++ [url] }
  match env.get url with
  | .error err => (.error (.transport err), w)
  | .ok resp =>
    if resp.StatusCode ≠ 200 then
      (.error (.status "failed to download the badge"), w)
    else
      match (if w.fs.notExist destDir then env.mkdirAll destDir else none) with
      | some (made, err) =>
        (.error (.mkdir err), { w with fs := { w.fs with dirs := w.fs.dirs ++ made } })
      | none =>
        let w := if w.fs.notExist destDir then
            { w with fs := { w.fs with dirs := w.fs.dirs ++ [destDir] } }
          else w
        let fileName := labelTextSlug ++ "-badge.svg"
        let filePath := L.filepathJoin destDir fileName
        match env.create filePath with
        | some err => (.error (.create err), w)
        | none =>
          let w := { w with fs := { w.fs with files := setFile w.fs.files filePath "" } }
          match env.copy with
          | some (n, err) =>
            (.error (.copy err),
              { w with fs := { w.fs with
                  files := setFile w.fs.files filePath ⟨resp.Body.data.take n⟩ } })
          | none =>
            let w := { w with fs := { w.fs with
                files := setFile w.fs.files filePath resp.Body } }
            let w := w.print ("Badge downloaded successfully as " ++ filePath ++ "\n")
            (.ok fileName, w)

/-- Variables of `main` that change in the loop over the service names. -/
structure LoopState where
  w : World
  htmlContent : List String
deriving DecidableEq, Repr

/-- Body of the loop of `main` over `serviceList`; `envs k` is what the outside
world answers to the download that starts when `k` requests have been sent. -/
def loopBody (L : GoLib) (envs : Nat → CallEnv) (icons : List IconData) (destDir : String)
    (st : LoopState) (serviceName : String) : LoopState :=
  let serviceName := stringsTrimSpace serviceName
  match FindIconByName L icons serviceName with
  | some icon =>
    let slug := computeSlug L icon.Title
    let w := st.w.print ("Found icon for " ++ icon.Title ++ " (computed slug: " ++ slug ++
      ") with color #" ++ icon.Hex ++ "\n")
    let w := w.print "Enter the text on the badge: "
    let labelText := stringsTrimSpace w.readLine.1
    let w := w.readLine.2
    let fontColor := "white"
    match downloadBadge L (envs w.requests.length) labelText slug icon.Hex fontColor destDir w with
    | (.error err, w) =>
      { st with w := w.print ("Error downloading badge for " ++ serviceName ++ ": " ++
          err.msg ++ "\n") }
    | (.ok fileName, w) =>
      let htmlTag := "<img alt=\"" ++ slug ++ "\" src=\"" ++ fileName ++ "\" />"
      { w := w, htmlContent := st.htmlContent ++ [htmlTag] }
  | none =>
    { st with w := st.w.print ("Service '" ++ serviceName ++ "' not found. Skipping...\n") }

/-- Loop of `main` over `serviceList`, started with an empty `htmlContent`. -/
def mainLoop (L : GoLib) (envs : Nat → CallEnv) (icons : List IconData) (destDir : String)
    (serviceList : List String) (w : World) : LoopState :=
  serviceList.foldl (loopBody L envs icons destDir) { w := w, htmlContent := [] }

/-- Loop of `main` that writes the tags: the `k`-th `WriteString` and the ones
after it; the result tells whether all of them succeeded. -/
def writeTags (env : HtmlEnv) (path : String) : Nat → List String → World → Bool × World
  | _, [], w => (true, w)
  | k, htmlTag :: rest, w =>
    let old := (readFile w.fs.files path).getD ""
    match env.write k with
    | some (n, err) =>
      (false, ({ w with fs := { w.fs with
          files := setFile w.fs.files path
            (old ++ String.mk ((htmlTag ++ "\n").data.take n)) } }).print
        ("Error writing to HTML file: " ++ err ++ "\n"))
    | none =>
      writeTags env path (k + 1) rest
        { w with fs := { w.fs with files := setFile w.fs.files path (old ++ htmlTag ++ "\n") } }

/-- End of `main`: the question whether the HTML file is wanted, and the file. -/
def composeHTML (L : GoLib) (env : HtmlEnv) (destDir : String) (htmlContent : List String)
    (w : World) : World :=
  let w := w.print "Do you want to create an HTML file to embed the badges? (yes/no): "
  let confirmation := w.readLine.1
  let w := w.readLine.2
  let confirmation := stringsTrimSpace (stringsToLower L confirmation)
  if confirmation = "yes" then
    let htmlFileName := L.filepathJoin destDir "badges.html"
    match env.create htmlFileName with
    | some err => w.print ("Error creating HTML file: " ++ err ++ "\n")
    | none =>
      let w := { w with fs := { w.fs with files := setFile w.fs.files htmlFileName "" } }
      match writeTags env htmlFileName 0 htmlContent w with
      | (false, w) => w
      | (true, w) => w.print ("HTML file created successfully as " ++ htmlFileName ++ "\n")
  else w

/-! ## The outcomes the main loop is measured against -/

/-- For one requested name and the world in which its iteration starts: the
record that the lookup finds together with what the call of `downloadBadge`
for it returns, or `none` when the name is not in the catalog (no download is
started then). -/
def downloadOutcome (L : GoLib) (envs : Nat → CallEnv) (icons : List IconData)
    (destDir : String) (w : World) (serviceName : String) :
    Option (IconData × Except DownloadError String) :=
  match FindIconByName L icons (stringsTrimSpace serviceName) with
  | none => none
  | some icon =>
    let w := w.print ("Found icon for " ++ icon.Title ++ " (computed slug: " ++
      computeSlug L icon.Title ++ ") with color #" ++ icon.Hex ++ "\n")
    let w := w.print "Enter the text on the badge: "
    some (icon, (downloadBadge L (envs w.readLine.2.requests.length)
      (stringsTrimSpace w.readLine.1) (computeSlug L icon.Title) icon.Hex "white" destDir
      w.readLine.2).1)

/-- The tag that a requested name stands for in the HTML: the `img` tag with the
slug of the found title and the returned file name when the name was found and
its download returned no error, nothing otherwise. -/
def fragmentOf (L : GoLib) (envs : Nat → CallEnv) (icons : List IconData)
    (destDir : String) (w : World) (serviceName : String) : Option String :=
  match downloadOutcome L envs icons destDir w serviceName with
  | some (icon, .ok fileName) =>
    some ("<img alt=\"" ++ computeSlug L icon.Title ++ "\" src=\"" ++ fileName ++ "\" />")
  | _ => none

/-- The worlds in which the iterations of the main loop start, one for each
requested name. -/
def worldsBefore (L : GoLib) (envs : Nat → CallEnv) (icons : List IconData)
    (destDir : String) : List String → World → List World
  | [], _ => []
  | serviceName :: rest, w =>
    w :: worldsBefore L envs icons destDir rest
      (loopBody L envs icons destDir { w := w, htmlContent := [] } serviceName).w

/-- The lines of `badges.html`: every tag followed by a line feed. -/
def htmlLines : List String → String
  | [] => ""
  | htmlTag :: rest => htmlTag ++ "\n" ++ htmlLines rest

/-! ## A concrete library, environment and catalog for evaluation -/

/-- A library whose case table leaves runes above ASCII alone and whose
`filepathJoin` puts a slash between a non-empty directory and the name. -/
def asciiLib : GoLib where
  caseTable := fun r => r
  filepathJoin := fun dir name => if dir = "" then name else dir ++ "/" ++ name

/-- An outside world in which every step of a download succeeds. -/
def okEnv : CallEnv where
  get := fun _ => .ok { StatusCode := 200, Body := "<svg/>" }
  mkdirAll := fun _ => none
  create := fun _ => none
  copy := none

/-- An outside world in which the badge service answers 404. -/
def notFoundEnv : CallEnv where
  get := fun _ => .ok { StatusCode := 404, Body := "" }
  mkdirAll := fun _ => none
  create := fun _ => none
  copy := none

/-- An outside world in which the connection breaks after three characters of
the body have been copied. -/
def brokenCopyEnv : CallEnv where
  get := fun _ => .ok { StatusCode := 200, Body := "<svg/>" }
  mkdirAll := fun _ => none
  create := fun _ => none
  copy := some (3, "unexpected EOF")

/-- An outside world in which `badges.html` can be created and written. -/
def okHtmlEnv : HtmlEnv where
  create := fun _ => none
  write := fun _ => none

/-- A small catalog. -/
def sampleIcons : List IconData :=
  [{ Title := "GitHub", Hex := "181717" }, { Title := "Node.js", Hex := "5FA04E" },
   { Title := "Docker", Hex := "2496ED" }]

/-- An empty disk, nothing printed, nothing requested, and the given standard
input. -/
def startWorld (input : String) : World where
  fs := { dirs := [], files := [] }
  stdin := input.data
  stdout := []
  requests := []

/-! ## Lookup -/

theorem findLoop_eq_find (L : GoLib) (name : String) (icons : List IconData) :
    findLoop L name icons = icons.find? (fun icon => stringsToLower L icon.Title = name) := by
  induction icons with
  | nil => rfl
  | cons icon rest ih =>
    by_cases h : stringsToLower L icon.Title = name
    · simp [findLoop, List.find?, h]
    · simp [findLoop, List.find?, h, ih]

theorem findLoop_some_iff (L : GoLib) (name : String) (icons : List IconData) (r : IconData) :
    findLoop L name icons = some r ↔
      ∃ i, ∃ h : i < icons.length, icons.get ⟨i, h⟩ = r ∧ stringsToLower L r.Title = name ∧
        ∀ j, ∀ hj : j < icons.length, j < i →
          stringsToLower L (icons.get ⟨j, hj⟩).Title ≠ name := by
  induction icons with
  | nil => simp [findLoop]
  | cons icon rest ih =>
    by_cases h : stringsToLower L icon.Title = name
    · simp only [findLoop, h, if_true, Option.some.injEq]
      constructor
      · rintro rfl
        exact ⟨0, by simp, rfl, h, fun j _ hj => absurd hj (Nat.not_lt_zero j)⟩
      · rintro ⟨i, hi, hget, _, hmin⟩
        cases i with
        | zero => simpa using hget
        | succ i => exact absurd h (hmin 0 (by simp) (Nat.succ_pos i))
    · simp only [findLoop, h, if_false, ih]
      constructor
      · rintro ⟨i, hi, hget, hr, hmin⟩
        refine ⟨i + 1, by simpa using hi, by simpa using hget, hr, ?_⟩
        intro j hj hlt
        cases j with
        | zero => simpa using h
        | succ j => simpa using hmin j (by simpa using hj) (by omega)
      · rintro ⟨i, hi, hget, hr, hmin⟩
        cases i with
        | zero =>
          have : icon = r := by simpa using hget
          exact absurd (this ▸ hr) h
        | succ i =>
          refine ⟨i, by simpa using hi, by simpa using hget, hr, ?_⟩
          intro j hj hlt
          simpa using hmin (j + 1) (by simpa using hj) (by omega)

theorem findLoop_none_iff (L : GoLib) (name : String) (icons : List IconData) :
    findLoop L name icons = none ↔ ∀ r ∈ icons, stringsToLower L r.Title ≠ name := by
  rw [findLoop_eq_find]
  simp

/-- C3: `FindIconByName` returns the record at the smallest index whose
lowercased title equals the lowercased name, and returns the not-found value
exactly when no record of the catalog has such a title. -/
theorem FindIconByName_first_match (L : GoLib) (icons : List IconData) (name : String) :
    (∀ r, FindIconByName L icons name = some r ↔
      ∃ i, ∃ h : i < icons.length, icons.get ⟨i, h⟩ = r ∧
        stringsToLower L r.Title = stringsToLower L name ∧
        ∀ j, ∀ hj : j < icons.length, j < i →
          stringsToLower L (icons.get ⟨j, hj⟩).Title ≠ stringsToLower L name) ∧
    (FindIconByName L icons name = none ↔
      ∀ r ∈ icons, stringsToLower L r.Title ≠ stringsToLower L name) :=
  ⟨fun r => findLoop_some_iff L _ icons r, findLoop_none_iff L _ icons⟩

/-- C8: two names with the same lowercased form get the same answer from
`FindIconByName`, whatever the catalog. -/
theorem FindIconByName_case_insensitive (L : GoLib) (icons : List IconData) (n1 n2 : String)
    (h : stringsToLower L n1 = stringsToLower L n2) :
    FindIconByName L icons n1 = FindIconByName L icons n2 := by
  unfold FindIconByName
  rw [h]

/-- The names `github` and `GitHub` have the same lowercased form and both
resolve to the record titled `GitHub` of a catalog that holds it. -/
theorem FindIconByName_case_insensitive_witness :
    stringsToLower asciiLib "github" = stringsToLower asciiLib "GitHub" ∧
    FindIconByName asciiLib [{ Title := "GitHub", Hex := "181717" }] "github" =
      FindIconByName asciiLib [{ Title := "GitHub", Hex := "181717" }] "GitHub" ∧
    FindIconByName asciiLib [{ Title := "GitHub", Hex := "181717" }] "GitHub" =
      some { Title := "GitHub", Hex := "181717" } :=
  ⟨by decide,
   FindIconByName_case_insensitive asciiLib [{ Title := "GitHub", Hex := "181717" }]
     "github" "GitHub" (by decide),
   by decide⟩

/-- C10: the slug of the title of the record that `FindIconByName` returns is
the slug of the requested name. -/
theorem computeSlug_of_found_title (L : GoLib) (icons : List IconData) (name : String)
    (r : IconData) (h : FindIconByName L icons name = some r) :
    computeSlug L r.Title = computeSlug L name := by
  obtain ⟨_, _, _, hr, _⟩ := (findLoop_some_iff L _ icons r).mp h
  simp only [computeSlug, hr]

/-- The request `gitHUB` finds the record titled `GitHub` of the sample catalog,
and both have the slug `github`. -/
theorem computeSlug_of_found_title_witness :
    FindIconByName asciiLib sampleIcons "gitHUB" = some { Title := "GitHub", Hex := "181717" } ∧
    computeSlug asciiLib "GitHub" = computeSlug asciiLib "gitHUB" :=
  ⟨by decide,
   computeSlug_of_found_title asciiLib sampleIcons "gitHUB"
     { Title := "GitHub", Hex := "181717" } (by decide)⟩

/-! ## Colours -/

/-- C5: `stripHash` drops exactly one leading `#` and leaves a string that does
not begin with `#` as it is. -/
theorem stripHash_drops_one_leading_hash (c : String) :
    stripHash ("#" ++ c) = c ∧
    (c.data.head? ≠ some '#' → stripHash c = c) ∧
    stripHash "##ab" = "#ab" ∧
    stripHash "#1DA1F2" = "1DA1F2" ∧
    stripHash "1DA1F2" = "1DA1F2" := by
  refine ⟨?_, ?_, by decide, by decide, by decide⟩
  · simp [stripHash, stringsHasPrefix, List.isPrefixOf]
  · intro h
    unfold stripHash stringsHasPrefix
    rcases c with ⟨data⟩
    cases data with
    | nil => simp [List.isPrefixOf]
    | cons a as =>
      have : a ≠ '#' := by simpa using h
      have h2 : ('#' == a) = false := by simpa using fun e => this e.symm
      simp [List.isPrefixOf, h2]

/-- The colour `1DA1F2` with and without a leading `#`. -/
theorem stripHash_drops_one_leading_hash_witness :
    stripHash ("#" ++ "1DA1F2") = "1DA1F2" ∧ stripHash "1DA1F2" = "1DA1F2" :=
  ⟨(stripHash_drops_one_leading_hash "1DA1F2").1,
   (stripHash_drops_one_leading_hash "1DA1F2").2.1 (by decide)⟩

/-! ## Slugs -/

theorem replaceFrom_single (a : Char) (new s : List Char) :
    replaceFrom [a] new 0 s = s.flatMap (fun c => if c = a then new else [c]) := by
  induction s with
  | nil => rfl
  | cons c cs ih =>
    by_cases h : c = a
    · subst h
      simp [replaceFrom, List.isPrefixOf, ih]
    · have h2 : (a == c) = false := by simpa using fun e => h e.symm
      simp [replaceFrom, List.isPrefixOf, h, h2, ih]

/-- Characters of a slug, written with `flatMap`. -/
theorem computeSlug_data (L : GoLib) (s : String) :
    (computeSlug L s).data =
      ((s.data.map (unicodeToLower L)).flatMap (fun c => if c = ' ' then [] else [c])).flatMap
        (fun c => if c = '.' then ['d', 'o', 't'] else [c]) := by
  simp only [computeSlug, stringsReplaceAll, stringsToLower]
  have h1 : (" " : String).data = [' '] := rfl
  have h2 : ("." : String).data = ['.'] := rfl
  have h3 : ("" : String).data = [] := rfl
  have h4 : ("dot" : String).data = ['d', 'o', 't'] := rfl
  simp [h1, h2, h3, h4, replaceFrom_single]

theorem computeSlug_mem (L : GoLib) (s : String) (x : Char) (hx : x ∈ (computeSlug L s).data) :
    x ≠ ' ' ∧ x ≠ '.' ∧ ((∃ c, x = unicodeToLower L c) ∨ x = 'd' ∨ x = 'o' ∨ x = 't') := by
  rw [computeSlug_data] at hx
  simp only [List.mem_flatMap, List.mem_map] at hx
  obtain ⟨b, ⟨a, ⟨c, _, rfl⟩, hb⟩, hx⟩ := hx
  by_cases ha : unicodeToLower L c = ' '
  · simp [ha] at hb
  · simp only [ha, if_false, List.mem_singleton] at hb
    subst hb
    by_cases hd : unicodeToLower L c = '.'
    · simp only [hd, if_true, List.mem_cons, List.mem_singleton, List.not_mem_nil,
        or_false] at hx
      rcases hx with rfl | rfl | rfl
      · exact ⟨by decide, by decide, Or.inr (Or.inl rfl)⟩
      · exact ⟨by decide, by decide, Or.inr (Or.inr (Or.inl rfl))⟩
      · exact ⟨by decide, by decide, Or.inr (Or.inr (Or.inr rfl))⟩
    · simp only [hd, if_false, List.mem_singleton] at hx
      subst hx
      exact ⟨ha, hd, Or.inl ⟨c, rfl⟩⟩

theorem flatMap_fixed (f : Char → List Char) (t : List Char) (h : ∀ x ∈ t, f x = [x]) :
    t.flatMap f = t := by
  induction t with
  | nil => rfl
  | cons a as ih =>
    simp only [List.flatMap_cons, h a (List.mem_cons_self a as)]
    rw [ih (fun x hx => h x (List.mem_cons_of_mem a hx))]
    rfl

theorem map_fixed (f : Char → Char) (t : List Char) (h : ∀ x ∈ t, f x = x) :
    t.map f = t := by
  induction t with
  | nil => rfl
  | cons a as ih =>
    simp only [List.map_cons, h a (List.mem_cons_self a as)]
    rw [ih (fun x hx => h x (List.mem_cons_of_mem a hx))]

theorem computeSlug_lower_fixed (L : GoLib)
    (hidem : ∀ c, unicodeToLower L (unicodeToLower L c) = unicodeToLower L c)
    (s : String) (x : Char) (hx : x ∈ (computeSlug L s).data) : unicodeToLower L x = x := by
  rcases (computeSlug_mem L s x hx).2.2 with ⟨c, rfl⟩ | rfl | rfl | rfl
  · exact hidem c
  · rfl
  · rfl
  · rfl

theorem stringsToLower_computeSlug (L : GoLib)
    (hidem : ∀ c, unicodeToLower L (unicodeToLower L c) = unicodeToLower L c) (s : String) :
    stringsToLower L (computeSlug L s) = computeSlug L s := by
  apply String.ext
  simp only [stringsToLower]
  exact map_fixed _ _ (fun x hx => computeSlug_lower_fixed L hidem s x hx)

theorem ofNat_add_toNat (n : Nat) (h1 : 65 ≤ n) (h2 : n ≤ 90) :
    (Char.ofNat (n + 32)).toNat = n + 32 := by
  interval_cases n <;> rfl

/-- The case mapping of `asciiLib` is idempotent. -/
theorem asciiLib_idem (c : Char) :
    unicodeToLower asciiLib (unicodeToLower asciiLib c) = unicodeToLower asciiLib c := by
  unfold unicodeToLower
  by_cases h : c.toNat ≤ 127
  · by_cases h2 : 65 ≤ c.toNat ∧ c.toNat ≤ 90
    · have h3 := ofNat_add_toNat c.toNat h2.1 h2.2
      have h4 : (Char.ofNat (c.toNat + 32)).toNat ≤ 127 := by omega
      have h5 : ¬ (65 ≤ (Char.ofNat (c.toNat + 32)).toNat ∧
          (Char.ofNat (c.toNat + 32)).toNat ≤ 90) := by omega
      simp only [h, h2, h4, h5, if_true, if_false, and_self]
    · simp only [h, h2, if_true, if_false]
  · simp only [h, if_false, asciiLib]

/-- C2: `computeSlug` is idempotent, the case table of the library being one
whose lowercase mapping fixes the runes it produces. -/
theorem computeSlug_idempotent (L : GoLib)
    (hidem : ∀ c, unicodeToLower L (unicodeToLower L c) = unicodeToLower L c) (s : String) :
    computeSlug L (computeSlug L s) = computeSlug L s := by
  apply String.ext
  rw [computeSlug_data L (computeSlug L s)]
  rw [map_fixed _ _ (fun x hx => computeSlug_lower_fixed L hidem s x hx)]
  rw [flatMap_fixed (fun c => if c = ' ' then [] else [c]) _
    (fun x hx => by simp [(computeSlug_mem L s x hx).1])]
  rw [flatMap_fixed _ _ (fun x hx => by simp [(computeSlug_mem L s x hx).2.1])]

/-- Slugging `Node.js Docs` twice gives `nodedotjsdocs`, as slugging it once. -/
theorem computeSlug_idempotent_witness :
    (∀ c, unicodeToLower asciiLib (unicodeToLower asciiLib c) = unicodeToLower asciiLib c) ∧
    computeSlug asciiLib (computeSlug asciiLib "Node.js Docs") =
      computeSlug asciiLib "Node.js Docs" ∧
    computeSlug asciiLib "Node.js Docs" = "nodedotjsdocs" :=
  ⟨asciiLib_idem, computeSlug_idempotent asciiLib asciiLib_idem "Node.js Docs", by decide⟩

/-- C9: a slug holds no space and no dot and is unchanged by lowercasing;
`Microsoft Teams` gives `microsoftteams` and `Node.js` gives `nodedotjs`. -/
theorem computeSlug_lowercase_space_dot_free (L : GoLib)
    (hidem : ∀ c, unicodeToLower L (unicodeToLower L c) = unicodeToLower L c) (s : String) :
    ' ' ∉ (computeSlug L s).data ∧ '.' ∉ (computeSlug L s).data ∧
    stringsToLower L (computeSlug L s) = computeSlug L s ∧
    computeSlug L "Microsoft Teams" = "microsoftteams" ∧
    computeSlug L "Node.js" = "nodedotjs" :=
  ⟨fun h => (computeSlug_mem L s ' ' h).1 rfl, fun h => (computeSlug_mem L s '.' h).2.1 rfl,
   stringsToLower_computeSlug L hidem s, rfl, rfl⟩

/-- The slug of `My App v1.2` is `myappv1dot2`: no space, no dot, lowercase. -/
theorem computeSlug_lowercase_space_dot_free_witness :
    (∀ c, unicodeToLower asciiLib (unicodeToLower asciiLib c) = unicodeToLower asciiLib c) ∧
    computeSlug asciiLib "My App v1.2" = "myappv1dot2" ∧
    ' ' ∉ (computeSlug asciiLib "My App v1.2").data ∧
    '.' ∉ (computeSlug asciiLib "My App v1.2").data ∧
    stringsToLower asciiLib (computeSlug asciiLib "My App v1.2") =
      computeSlug asciiLib "My App v1.2" :=
  ⟨asciiLib_idem, by decide,
   (computeSlug_lowercase_space_dot_free asciiLib asciiLib_idem "My App v1.2").1,
   (computeSlug_lowercase_space_dot_free asciiLib asciiLib_idem "My App v1.2").2.1,
   (computeSlug_lowercase_space_dot_free asciiLib asciiLib_idem "My App v1.2").2.2.1⟩

/-! ## Downloading a badge -/

/-- C1, as the code has it: the URL requested by `downloadBadge` holds the label
text as it was typed, between the stripped background colour and the fixed
head of the URL; the icon name is slugified and both colours are stripped. -/
theorem downloadBadge_request_url (L : GoLib) (env : CallEnv)
    (labelText iconName iconBackgroundColor fontColor destDir : String) (w : World) :
    (downloadBadge L env labelText iconName iconBackgroundColor fontColor destDir w).2.requests =
      w.requests ++ ["https://img.shields.io/badge/-" ++ labelText ++ "-" ++
        stripHash iconBackgroundColor ++ "?style=flat-square&logo=" ++ computeSlug L iconName ++
        "&logoColor=" ++ stripHash fontColor] := by
  unfold downloadBadge
  simp only [World.print]
  split
  · rfl
  · split
    · rfl
    · split
      · rfl
      · split
        · split <;> rfl
        · split
          · split <;> rfl
          · split <;> rfl

/-- C1 fails for the label `My Code`: the URL requested holds `My Code`, while
the URL of the claim holds `mycode`. -/
theorem downloadBadge_url_label_not_slugified :
    (downloadBadge asciiLib okEnv "My Code" "GitHub" "#181717" "white" "out"
        (startWorld "")).2.requests =
      ["https://img.shields.io/badge/-My Code-181717?style=flat-square&logo=github&logoColor=white"] ∧
    "https://img.shields.io/badge/-" ++ computeSlug asciiLib "My Code" ++ "-" ++
        stripHash "#181717" ++ "?style=flat-square&logo=" ++ computeSlug asciiLib "GitHub" ++
        "&logoColor=" ++ stripHash "white" =
      "https://img.shields.io/badge/-mycode-181717?style=flat-square&logo=github&logoColor=white" ∧
    (downloadBadge asciiLib okEnv "My Code" "GitHub" "#181717" "white" "out"
        (startWorld "")).2.requests ≠
      ["https://img.shields.io/badge/-" ++ computeSlug asciiLib "My Code" ++ "-" ++
        stripHash "#181717" ++ "?style=flat-square&logo=" ++ computeSlug asciiLib "GitHub" ++
        "&logoColor=" ++ stripHash "white"] := by
  decide

theorem setFile_setFile (files : List (String × String)) (path a b : String) :
    setFile (setFile files path a) path b = setFile files path b := by
  by_cases h : files.any (fun e => e.1 = path) = true
  · have h2 : (files.map (fun e => if e.1 = path then (path, a) else e)).any
        (fun e => e.1 = path) = true := by
      simp only [List.any_eq_true, List.mem_map, decide_eq_true_eq] at h ⊢
      obtain ⟨e, he, hp⟩ := h
      exact ⟨(path, a), ⟨e, he, by simp [hp]⟩, rfl⟩
    simp only [setFile, h, h2, if_true, List.map_map]
    apply List.map_congr_left
    intro e _
    by_cases hp : e.1 = path <;> simp [hp]
  · have h2 : (files ++ [(path, a)]).any (fun e => e.1 = path) = true := by simp
    have h3 : ∀ e ∈ files, ¬ e.1 = path := by
      intro e he hp
      exact h (List.any_eq_true.mpr ⟨e, he, by simp [hp]⟩)
    have hf : files.any (fun e => e.1 = path) = false := Bool.eq_false_iff.mpr h
    simp only [setFile, hf, h2, if_true, List.map_append, List.map_cons, List.map_nil,
      Bool.false_eq_true, if_false]
    congr 1
    calc files.map (fun e => if e.1 = path then (path, b) else e)
        = files.map id := List.map_congr_left (fun e he => by simp [h3 e he])
      _ = files := List.map_id files

/-- C6, as the code has it: `downloadBadge` returns a file name exactly when
every step succeeds, so a failure at any step returns an error; after a failure
of the transport, of the status check, of the directory creation or of the
file creation the files and their contents are those from before the call;
after a failure while the body is copied the badge file is there and holds the
part of the body copied so far, all other files being as before. -/
theorem downloadBadge_failure_effects (L : GoLib) (env : CallEnv)
    (labelText iconName iconBackgroundColor fontColor destDir : String) (w : World) :
    ((∃ fileName, (downloadBadge L env labelText iconName iconBackgroundColor fontColor
          destDir w).1 = .ok fileName) ↔
      ∃ resp, env.get ("https://img.shields.io/badge/-" ++ labelText ++ "-" ++
          stripHash iconBackgroundColor ++ "?style=flat-square&logo=" ++
          computeSlug L iconName ++ "&logoColor=" ++ stripHash fontColor) = .ok resp ∧
        resp.StatusCode = 200 ∧
        (w.fs.notExist destDir = true → env.mkdirAll destDir = none) ∧
        env.create (L.filepathJoin destDir (computeSlug L labelText ++ "-badge.svg")) = none ∧
        env.copy = none) ∧
    (∀ e, (downloadBadge L env labelText iconName iconBackgroundColor fontColor
          destDir w).1 = .error e → (∀ m, e ≠ .copy m) →
      (downloadBadge L env labelText iconName iconBackgroundColor fontColor
          destDir w).2.fs.files = w.fs.files) ∧
    (∀ m, (downloadBadge L env labelText iconName iconBackgroundColor fontColor
          destDir w).1 = .error (.copy m) →
      ∃ resp n, env.get ("https://img.shields.io/badge/-" ++ labelText ++ "-" ++
          stripHash iconBackgroundColor ++ "?style=flat-square&logo=" ++
          computeSlug L iconName ++ "&logoColor=" ++ stripHash fontColor) = .ok resp ∧
        env.copy = some (n, m) ∧
        (downloadBadge L env labelText iconName iconBackgroundColor fontColor
          destDir w).2.fs.files =
          setFile w.fs.files (L.filepathJoin destDir (computeSlug L labelText ++ "-badge.svg"))
            (String.mk (resp.Body.data.take n))) := by
  unfold downloadBadge
  simp only [World.print]
  cases hget : env.get ("https://img.shields.io/badge/-" ++ labelText ++ "-" ++
      stripHash iconBackgroundColor ++ "?style=flat-square&logo=" ++
      computeSlug L iconName ++ "&logoColor=" ++ stripHash fontColor) with
  | error err => simp
  | ok resp =>
    by_cases hst : resp.StatusCode = 200
    · cases hcr : env.create (L.filepathJoin destDir (computeSlug L labelText ++ "-badge.svg")) with
      | some cerr =>
        by_cases hne : w.fs.notExist destDir = true
        · cases hmk : env.mkdirAll destDir with
          | some p => simp [hst, hne, hmk, hcr]
          | none => simp [hst, hne, hmk, hcr]
        · simp [hst, hne, hcr]
      | none =>
        cases hcp : env.copy with
        | some q =>
          by_cases hne : w.fs.notExist destDir = true
          · cases hmk : env.mkdirAll destDir with
            | some p => simp [hst, hne, hmk, hcr, hcp]
            | none =>
              simp [hst, hne, hmk, hcr, hcp, setFile_setFile]
              exact ⟨q.1, rfl, rfl⟩
          · simp [hst, hne, hcr, hcp, setFile_setFile]
            exact ⟨q.1, rfl, rfl⟩
        | none =>
          by_cases hne : w.fs.notExist destDir = true
          · cases hmk : env.mkdirAll destDir with
            | some p => simp [hst, hne, hmk, hcr, hcp]
            | none => simp [hst, hne, hmk, hcr, hcp]
          · simp [hst, hne, hcr, hcp]
    · simp [hst]

/-- The badge service answers 404 for the label `Code`: an error is returned
and the disk is as it was. -/
theorem downloadBadge_failure_effects_witness :
    (downloadBadge asciiLib notFoundEnv "Code" "github" "181717" "white" "out"
        (startWorld "")).1 = .error (.status "failed to download the badge") ∧
    (downloadBadge asciiLib notFoundEnv "Code" "github" "181717" "white" "out"
        (startWorld "")).2.fs.files = (startWorld "").fs.files :=
  ⟨rfl,
   (downloadBadge_failure_effects asciiLib notFoundEnv "Code" "github" "181717" "white" "out"
     (startWorld "")).2.1 (.status "failed to download the badge") rfl
     (fun _ h => DownloadError.noConfusion h)⟩

/-- C6 fails when the copy of the body breaks off: the call returns an error,
and the disk, empty before, holds a badge file with the first three characters
of the body. -/
theorem downloadBadge_copy_failure_leaves_file :
    (downloadBadge asciiLib brokenCopyEnv "My Code" "github" "181717" "white" "out"
        (startWorld "")).1 = .error (.copy "unexpected EOF") ∧
    (startWorld "").fs.files = [] ∧
    (downloadBadge asciiLib brokenCopyEnv "My Code" "github" "181717" "white" "out"
        (startWorld "")).2.fs.files = [("out/mycode-badge.svg", "<sv")] ∧
    (downloadBadge asciiLib brokenCopyEnv "My Code" "github" "181717" "white" "out"
        (startWorld "")).2.fs.files ≠ (startWorld "").fs.files :=
  ⟨rfl, rfl, by decide, by decide⟩

/-! ## The main loop -/

theorem loopBody_w (L : GoLib) (envs : Nat → CallEnv) (icons : List IconData)
    (destDir : String) (w : World) (html : List String) (serviceName : String) :
    (loopBody L envs icons destDir { w := w, htmlContent := html } serviceName).w =
      (loopBody L envs icons destDir { w := w, htmlContent := [] } serviceName).w := by
  unfold loopBody
  simp only
  split
  · split <;> rfl
  · rfl

theorem loopBody_htmlContent (L : GoLib) (envs : Nat → CallEnv) (icons : List IconData)
    (destDir : String) (st : LoopState) (serviceName : String) :
    (loopBody L envs icons destDir st serviceName).htmlContent =
      st.htmlContent ++ (fragmentOf L envs icons destDir st.w serviceName).toList := by
  unfold loopBody fragmentOf downloadOutcome
  simp only
  cases hfind : FindIconByName L icons (stringsTrimSpace serviceName) with
  | none => simp
  | some icon =>
    simp only
    split
    · next err w2 heq => simp [heq]
    · next fileName w2 heq => simp [heq]

theorem foldl_loopBody_htmlContent (L : GoLib) (envs : Nat → CallEnv) (icons : List IconData)
    (destDir : String) (serviceList : List String) (st : LoopState) :
    (serviceList.foldl (loopBody L envs icons destDir) st).htmlContent =
      st.htmlContent ++
        (serviceList.zip (worldsBefore L envs icons destDir serviceList st.w)).filterMap
          (fun p => fragmentOf L envs icons destDir p.2 p.1) := by
  induction serviceList generalizing st with
  | nil => simp [worldsBefore]
  | cons serviceName rest ih =>
    simp only [List.foldl_cons, worldsBefore, List.zip_cons_cons, List.filterMap_cons]
    rw [ih, loopBody_htmlContent]
    have hw : (loopBody L envs icons destDir st serviceName).w =
        (loopBody L envs icons destDir { w := st.w, htmlContent := [] } serviceName).w :=
      loopBody_w L envs icons destDir st.w st.htmlContent serviceName
    rw [hw]
    cases hfrag : fragmentOf L envs icons destDir st.w serviceName <;> simp

/-- C4: the `htmlContent` that the main loop collects is the list of `img` tags
of the requested names that were found in the catalog and whose `downloadBadge`
call returned no error, in the order of the names; an iteration appends its tag
in that case and nothing otherwise; of two found names of which the first meets
a 404 and the second is downloaded, only the tag of the second is collected. -/
theorem mainLoop_htmlContent (L : GoLib) (envs : Nat → CallEnv) (icons : List IconData)
    (destDir : String) (serviceList : List String) (w : World) :
    (mainLoop L envs icons destDir serviceList w).htmlContent =
      (serviceList.zip (worldsBefore L envs icons destDir serviceList w)).filterMap
        (fun p => fragmentOf L envs icons destDir p.2 p.1) ∧
    (∀ st serviceName, (loopBody L envs icons destDir st serviceName).htmlContent =
      st.htmlContent ++ (fragmentOf L envs icons destDir st.w serviceName).toList) ∧
    (mainLoop asciiLib (fun k => if k = 0 then notFoundEnv else okEnv) sampleIcons "out"
        ["GitHub", " docker "] (startWorld "Code\nShip\n")).htmlContent =
      ["<img alt=\"docker\" src=\"ship-badge.svg\" />"] := by
  refine ⟨?_, fun st serviceName => loopBody_htmlContent L envs icons destDir st serviceName,
    by decide⟩
  unfold mainLoop
  rw [foldl_loopBody_htmlContent]
  rfl

/-! ## Writing the HTML file -/

theorem find_map_setFile (files : List (String × String)) (path c : String)
    (h : files.any (fun e => e.1 = path) = true) :
    (files.map (fun e => if e.1 = path then (path, c) else e)).find?
      (fun e => e.1 = path) = some (path, c) := by
  induction files with
  | nil => simp at h
  | cons e es ih =>
    by_cases hp : e.1 = path
    · simp [hp]
    · have h2 : es.any (fun e => e.1 = path) = true := by
        simpa [List.any_cons, hp] using h
      simp [List.find?_cons, hp, ih h2]

theorem readFile_setFile (files : List (String × String)) (path c : String) :
    readFile (setFile files path c) path = some c := by
  unfold readFile setFile
  by_cases h : files.any (fun e => e.1 = path) = true
  · simp only [h, if_true, find_map_setFile files path c h, Option.map_some']
  · have hf : files.any (fun e => e.1 = path) = false := Bool.eq_false_iff.mpr h
    have hnone : files.find? (fun e => decide (e.1 = path)) = none := by
      rw [List.find?_eq_none]
      intro e he hp
      exact h (List.any_eq_true.mpr ⟨e, he, hp⟩)
    simp only [hf, Bool.false_eq_true, if_false, List.find?_append, hnone, Option.none_or]
    simp

theorem writeTags_ok (env : HtmlEnv) (path : String) (hwrite : ∀ k, env.write k = none)
    (tags : List String) (k : Nat) (fs : FileSystem) (input : List Char)
    (out reqs : List String) (files : List (String × String)) (c : String) :
    writeTags env path k tags
        { fs := { dirs := fs.dirs, files := setFile files path c },
          stdin := input, stdout := out, requests := reqs } =
      (true, { fs := { dirs := fs.dirs, files := setFile files path (c ++ htmlLines tags) },
               stdin := input, stdout := out, requests := reqs }) := by
  induction tags generalizing k c with
  | nil => simp [writeTags, htmlLines]
  | cons t rest ih =>
    simp only [writeTags, hwrite, readFile_setFile, Option.getD_some, setFile_setFile]
    rw [ih]
    simp [htmlLines, String.append_assoc]

/-- C7, as the code has it: `badges.html` is written exactly when the line read
as confirmation, lowercased and with leading and trailing white space trimmed,
is `yes`. In that case, the file system letting the file be created and
written, the file holds one collected tag per line in collection order; in every
other case the disk stays as it is and nothing but the question is printed. -/
theorem composeHTML_confirmation (L : GoLib) (env : HtmlEnv) (destDir : String)
    (htmlContent : List String) (w : World) :
    (stringsTrimSpace (stringsToLower L w.readLine.1) = "yes" →
      env.create (L.filepathJoin destDir "badges.html") = none →
      (∀ k, env.write k = none) →
      (composeHTML L env destDir htmlContent w).fs.files =
        setFile w.fs.files (L.filepathJoin destDir "badges.html") (htmlLines htmlContent) ∧
      readFile (composeHTML L env destDir htmlContent w).fs.files
        (L.filepathJoin destDir "badges.html") = some (htmlLines htmlContent)) ∧
    (stringsTrimSpace (stringsToLower L w.readLine.1) ≠ "yes" →
      (composeHTML L env destDir htmlContent w).fs = w.fs ∧
      (composeHTML L env destDir htmlContent w).stdout = w.stdout ++
        ["Do you want to create an HTML file to embed the badges? (yes/no): "]) := by
  have hline : (w.print
      "Do you want to create an HTML file to embed the badges? (yes/no): ").readLine.1 =
      w.readLine.1 := rfl
  constructor
  · intro hyes hcreate hwrite
    have hfiles : (composeHTML L env destDir htmlContent w).fs.files =
        setFile w.fs.files (L.filepathJoin destDir "badges.html") (htmlLines htmlContent) := by
      unfold composeHTML
      simp only [hline, hyes, if_true, hcreate]
      simp only [World.print, World.readLine]
      rw [writeTags_ok env _ hwrite htmlContent 0 w.fs]
      simp
    exact ⟨hfiles, by rw [hfiles, readFile_setFile]⟩
  · intro hno
    unfold composeHTML
    simp only [hline, hno, if_false]
    exact ⟨rfl, rfl⟩

/-- The answers `Yes` and `no` with two collected tags on an empty disk. -/
theorem composeHTML_confirmation_witness :
    readFile (composeHTML asciiLib okHtmlEnv "out" ["<a>", "<b>"] (startWorld "Yes\n")).fs.files
      "out/badges.html" = some "<a>\n<b>\n" ∧
    (composeHTML asciiLib okHtmlEnv "out" ["<a>", "<b>"] (startWorld "no\n")).fs =
      (startWorld "no\n").fs :=
  ⟨((composeHTML_confirmation asciiLib okHtmlEnv "out" ["<a>", "<b>"]
      (startWorld "Yes\n")).1 (by decide) rfl (fun _ => rfl)).2,
   ((composeHTML_confirmation asciiLib okHtmlEnv "out" ["<a>", "<b>"]
      (startWorld "no\n")).2 (by decide)).1⟩

/-- C7 fails for the answer `YES` typed with blanks around it: the answer is not
the word `yes` in any letter case, with or without its line feed, and
`badges.html` is written all the same. -/
theorem composeHTML_accepts_padded_yes :
    stringsToLower asciiLib "  YES  " ≠ "yes" ∧
    stringsToLower asciiLib "  YES  \n" ≠ "yes" ∧
    (startWorld "  YES  \n").fs.files = [] ∧
    (composeHTML asciiLib okHtmlEnv "out" ["<img alt=\"github\" src=\"code-badge.svg\" />"]
        (startWorld "  YES  \n")).fs.files =
      [("out/badges.html", "<img alt=\"github\" src=\"code-badge.svg\" />\n")] := by
  decide

end SimpleIconsBadge
